import Mathlib

/-!
Verification development for the deep-research Streamlit app (src/app.py).

The app drives a research workflow: plan a goal and queries, run web
searches through an LLM gateway, evaluate sufficiency of the collected
evidence, expand the query set, and repeat until the evaluator is
satisfied.  The external gateway is modelled as call-indexed oracle
streams of responses; the research loop (the step == 3 branch of the app),
the JSON handling and the per-component response processing are embedded
from the source.  Python machine-level details that no property here
touches (float literals, unicode escape sequences in JSON strings) are
noted at the definitions that simplify them.
-/

namespace DeepResearch

/-- JSON values, as produced by Python `json.loads`.  Numbers are modelled
as integers; float literals are outside the scope of every property below. -/
inductive JValue where
  | null : JValue
  | bool : Bool → JValue
  | num : Int → JValue
  | str : String → JValue
  | arr : List JValue → JValue
  | obj : List (String × JValue) → JValue
deriving Repr

/-- Whitespace recognised by the JSON grammar. -/
def isWs (c : Char) : Bool := c = ' ' || c = '\n' || c = '\t' || c = '\r'

/-- Drop leading JSON whitespace. -/
def skipWs : List Char → List Char
  | [] => []
  | c :: cs => if isWs c then skipWs cs else c :: cs

/-- Parse the body of a JSON string literal (the opening quote already
consumed); returns the decoded characters and the input after the closing
quote.  Handles the common escape sequences; unicode escapes are outside
the scope of every property below. -/
def parseStrBody : List Char → Option (List Char × List Char)
  | [] => none
  | '"' :: rest => some ([], rest)
  | '\\' :: e :: rest =>
    match (match e with
           | '"' => some '"'
           | '\\' => some '\\'
           | '/' => some '/'
           | 'n' => some '\n'
           | 't' => some '\t'
           | 'r' => some '\r'
           | _ => none) with
    | some c => (parseStrBody rest).map (fun p => (c :: p.1, p.2))
    | none => none
  | c :: rest => (parseStrBody rest).map (fun p => (c :: p.1, p.2))

/-- Take the maximal run of leading decimal digits. -/
def takeDigits : List Char → (List Char × List Char)
  | [] => ([], [])
  | c :: cs =>
    if c.isDigit then
      let p := takeDigits cs
      (c :: p.1, p.2)
    else ([], c :: cs)

/-- Decimal digits to a natural number. -/
def digitsToNat (ds : List Char) : Nat :=
  ds.foldl (fun acc c => acc * 10 + (c.toNat - 48)) 0

/-- Consume an expected literal character sequence. -/
def dropLit : List Char → List Char → Option (List Char)
  | [], cs => some cs
  | l :: ls, c :: cs => if c = l then dropLit ls cs else none
  | _ :: _, [] => none

mutual

/-- Fuel-indexed recursive-descent parse of one JSON value; together with
`jsonLoads` this models Python `json.loads` on the inputs the app can
meet (no floats, no unicode escapes). -/
def parseVal : Nat → List Char → Option (JValue × List Char)
  | 0, _ => none
  | fuel + 1, cs =>
    match skipWs cs with
    | [] => none
    | '"' :: rest => (parseStrBody rest).map (fun p => (JValue.str (String.mk p.1), p.2))
    | 'n' :: rest => (dropLit ['u', 'l', 'l'] rest).map (fun r => (JValue.null, r))
    | 't' :: rest => (dropLit ['r', 'u', 'e'] rest).map (fun r => (JValue.bool true, r))
    | 'f' :: rest => (dropLit ['a', 'l', 's', 'e'] rest).map (fun r => (JValue.bool false, r))
    | '[' :: rest =>
      match skipWs rest with
      | ']' :: r2 => some (JValue.arr [], r2)
      | r2 => (parseItems fuel r2).map (fun p => (JValue.arr p.1, p.2))
    | '\x7b' :: rest =>
      match skipWs rest with
      | '\x7d' :: r2 => some (JValue.obj [], r2)
      | r2 => (parseMembers fuel r2).map (fun p => (JValue.obj p.1, p.2))
    | '-' :: rest =>
      match takeDigits rest with
      | ([], _) => none
      | (ds, r2) => some (JValue.num (-(digitsToNat ds : Int)), r2)
    | c :: rest =>
      if c.isDigit then
        match takeDigits (c :: rest) with
        | (ds, r2) => some (JValue.num (digitsToNat ds), r2)
      else none

/-- Parse the comma-separated items of a non-empty JSON array, up to and
including the closing bracket. -/
def parseItems : Nat → List Char → Option (List JValue × List Char)
  | 0, _ => none
  | fuel + 1, cs =>
    match parseVal fuel cs with
    | none => none
    | some (v, rest) =>
      match skipWs rest with
      | ',' :: r2 => (parseItems fuel r2).map (fun p => (v :: p.1, p.2))
      | ']' :: r2 => some ([v], r2)
      | _ => none

/-- Parse the comma-separated members of a non-empty JSON object, up to and
including the closing brace. -/
def parseMembers : Nat → List Char → Option (List (String × JValue) × List Char)
  | 0, _ => none
  | fuel + 1, cs =>
    match skipWs cs with
    | '"' :: rest =>
      match parseStrBody rest with
      | none => none
      | some (k, r1) =>
        match skipWs r1 with
        | ':' :: r2 =>
          match parseVal fuel r2 with
          | none => none
          | some (v, r3) =>
            match skipWs r3 with
            | ',' :: r4 => (parseMembers fuel r4).map (fun p => ((String.mk k, v) :: p.1, p.2))
            | '\x7d' :: r4 => some ([(String.mk k, v)], r4)
            | _ => none
        | _ => none
    | _ => none

end

/-- Model of Python `json.loads`: parse a full JSON document; `none` models
`json.JSONDecodeError`. -/
def jsonLoads (s : String) : Option JValue :=
  match parseVal (s.length + 1) s.data with
  | some (v, rest) => if skipWs rest = [] then some v else none
  | none => none

/-- A single-quote character, used by Python `repr` of strings. -/
def sq : String := String.mk [Char.ofNat 39]

mutual

/-- Python `str()` of a json-derived value, as used by f-string
interpolation (containers print via `repr` of their elements; quote
escaping inside `repr` is outside the scope of every property below). -/
def pyStr : JValue → String
  | .null => "None"
  | .bool true => "True"
  | .bool false => "False"
  | .num n => toString n
  | .str s => s
  | .arr xs => "[" ++ String.intercalate ", " (pyReprList xs) ++ "]"
  | .obj kvs => "\x7b" ++ String.intercalate ", " (pyReprMembers kvs) ++ "\x7d"

/-- Python `repr()` of a json-derived value. -/
def pyRepr : JValue → String
  | .null => "None"
  | .bool true => "True"
  | .bool false => "False"
  | .num n => toString n
  | .str s => sq ++ s ++ sq
  | .arr xs => "[" ++ String.intercalate ", " (pyReprList xs) ++ "]"
  | .obj kvs => "\x7b" ++ String.intercalate ", " (pyReprMembers kvs) ++ "\x7d"

/-- `repr` of each element of a Python list. -/
def pyReprList : List JValue → List String
  | [] => []
  | v :: vs => pyRepr v :: pyReprList vs

/-- `repr` of each member of a Python dict. -/
def pyReprMembers : List (String × JValue) → List String
  | [] => []
  | kv :: kvs => (sq ++ kv.1 ++ sq ++ ": " ++ pyRepr kv.2) :: pyReprMembers kvs

end

/-- Escape a string for JSON output (quote and backslash; control-character
escaping is outside the scope of every property below). -/
def jEsc (s : String) : String :=
  String.mk (s.data.foldr (fun c acc => if c = '"' || c = '\\' then '\\' :: c :: acc else c :: acc) [])

mutual

/-- Model of Python `json.dumps` with its default separators. -/
def jsonDumps : JValue → String
  | .null => "null"
  | .bool true => "true"
  | .bool false => "false"
  | .num n => toString n
  | .str s => "\"" ++ jEsc s ++ "\""
  | .arr xs => "[" ++ String.intercalate ", " (jsonDumpsList xs) ++ "]"
  | .obj kvs => "\x7b" ++ String.intercalate ", " (jsonDumpsMembers kvs) ++ "\x7d"

/-- `json.dumps` of each element of an array. -/
def jsonDumpsList : List JValue → List String
  | [] => []
  | v :: vs => jsonDumps v :: jsonDumpsList vs

/-- `json.dumps` of each member of an object. -/
def jsonDumpsMembers : List (String × JValue) → List String
  | [] => []
  | kv :: kvs => ("\"" ++ jEsc kv.1 ++ "\": " ++ jsonDumps kv.2) :: jsonDumpsMembers kvs

end

/-- One content part of a gateway output item (carries the generated text). -/
structure ContentPart where
  text : String
deriving Repr, DecidableEq

/-- One output item of a gateway response: an identifier and content parts. -/
structure OutputItem where
  id : String
  content : List ContentPart
deriving Repr, DecidableEq

/-- A gateway (OpenAI responses API) response: an ordered list of output
items.  Item 0 is the primary output; when a tool fires, item 1 carries
the tool result. -/
structure Response where
  output : List OutputItem
deriving Repr, DecidableEq

/-- Message roles used in structured gateway inputs. -/
inductive Role where
  | developer : Role
  | assistant : Role
  | user : Role
deriving Repr, DecidableEq

/-- One message of a structured gateway input. -/
structure Message where
  role : Role
  content : String
deriving Repr, DecidableEq

/-- Gateway input: either a plain prompt string or a message list. -/
inductive GatewayInput where
  | text : String → GatewayInput
  | messages : List Message → GatewayInput
deriving Repr, DecidableEq

/-- An outbound gateway call, as built by `client.responses.create(...)`
call sites in src/app.py: model name, input, instructions, whether the
web-search tool list was passed, and the `previous_response_id` argument
(`none` when the call site does not pass one). -/
structure Request where
  model : String
  input : GatewayInput
  instructions : String
  tools : Bool
  previousResponseId : Option String
deriving Repr, DecidableEq

/-- src/app.py line 39. -/
def MODEL : String := "gpt-4.1"

/-- src/app.py line 40. -/
def MODEL_MINI : String := "gpt-4.1-mini"

/-- src/app.py lines 42-45. -/
def developer_message : String :=
  "\nYou are an expert Deep Researcher.\nYou provide complete and in depth research to the user.\n"

/-- One collected search result, the dict built by `run_search`
(src/app.py lines 82-86).  The query is kept as the value iterated out of
the current query set. -/
structure EvidenceItem where
  query : JValue
  resp_id : String
  research_output : String
deriving Repr

/-- The json value a collected item serializes as in `json.dumps(collected)`. -/
def EvidenceItem.toJ (e : EvidenceItem) : JValue :=
  .obj [("query", e.query), ("resp_id", .str e.resp_id), ("research_output", .str e.research_output)]

/-- Serialize the collected evidence as `json.dumps(collected)` does. -/
def dumpsCollected (collected : List EvidenceItem) : String :=
  jsonDumps (.arr (collected.map EvidenceItem.toJ))

/-- Failure modes of the embedded code.  `indexError`, `keyError` and
`typeError` model the Python exceptions of the same names raised by
subscripting and iteration; `jsonDecodeError` models an uncaught
`json.JSONDecodeError`; `stStop` models `st.stop()` halting the script
after `st.error` (src/app.py lines 112-113 and 117-118). -/
inductive AppError where
  | indexError : AppError
  | keyError : String → AppError
  | typeError : AppError
  | jsonDecodeError : AppError
  | stStop : AppError
deriving Repr, DecidableEq

/-- `resp.output[0].content[0].text`, the reply text extraction shared by
the non-tool call sites; `none` models the `IndexError` cases. -/
def getText0 (r : Response) : Option String :=
  match r.output[0]? with
  | some item =>
    match item.content[0]? with
    | some part => some part.text
    | none => none
  | none => none

/-- Build a one-item response whose item 0 carries the given reply text;
convenience for stating properties over an arbitrary reply text. -/
def mkTextResponse (i : String) (t : String) : Response :=
  { output := [{ id := i, content := [{ text := t }] }] }

/-- Python substring containment, `needle in hay` on strings
(src/app.py line 98 uses it on the evaluator reply). -/
def pyContains (needle : List Char) : List Char → Bool
  | [] => needle.isEmpty
  | c :: t => needle.isPrefixOf (c :: t) || pyContains needle t

/-- Embeds `run_search` (src/app.py lines 75-86) applied to the gateway's
response: extracts `output[1].id` and `output[1].content[0].text`;
`indexError` models the `IndexError` raised when the second output slot
(or its first content part) is absent — the condition the spec names
`NoSearchResultError`. -/
def run_search (resp : Response) (q : JValue) : Except AppError EvidenceItem :=
  match resp.output[1]? with
  | none => .error .indexError
  | some item =>
    match item.content[0]? with
    | none => .error .indexError
    | some part => .ok { query := q, resp_id := item.id, research_output := part.text }

/-- The gateway call built by `run_search` (src/app.py lines 76-81). -/
def runSearchRequest (q : JValue) : Request :=
  { model := MODEL, input := .text ("search: " ++ pyStr q),
    instructions := developer_message, tools := true, previousResponseId := none }

/-- Python `str.lower` on one character, ASCII range (unicode case mapping
is outside the scope of every property below). -/
def pyCharLower (c : Char) : Char :=
  if 65 ≤ c.toNat ∧ c.toNat ≤ 90 then Char.ofNat (c.toNat + 32) else c

/-- Python `str.lower` (src/app.py line 98 applies it to the evaluator
reply). -/
def pyLower (s : String) : String := String.mk (s.data.map pyCharLower)

/-- Embeds `evaluate` (src/app.py lines 88-98) applied to the gateway's
response: the boolean is `"yes" in review.output[0].content[0].text.lower()`;
`indexError` models the `IndexError` when the reply has no text. -/
def evaluate (resp : Response) : Except AppError Bool :=
  match getText0 resp with
  | none => .error .indexError
  | some text => .ok (pyContains "yes".data (pyLower text).data)

/-- The gateway call built by `evaluate` (src/app.py lines 89-97). -/
def evaluateRequest (collected : List EvidenceItem) (goal : String) : Request :=
  { model := MODEL,
    input := .messages
      [{ role := .developer, content := "Research goal: " ++ goal },
       { role := .assistant, content := dumpsCollected collected },
       { role := .user, content := "Does this information will fully satisfy the goal? Answer Yes or No only." }],
    instructions := developer_message, tools := false, previousResponseId := none }

/-- Embeds `get_more_queries` (src/app.py lines 100-118) applied to the
gateway's response: empty reply text or a `json.loads` failure ends the
script via `st.error` plus `st.stop()` (modelled `stStop`) — the
conditions the spec names `MalformedExpansionError`; any successfully
parsed json value is returned as-is. -/
def get_more_queries (resp : Response) : Except AppError JValue :=
  match getText0 resp with
  | none => .error .indexError
  | some text =>
    if text = "" then .error .stStop
    else
      match jsonLoads text with
      | some v => .ok v
      | none => .error .stStop

/-- The gateway call built by `get_more_queries` (src/app.py lines 101-109),
with its `previous_response_id=prev_id` argument. -/
def getMoreQueriesRequest (collected : List EvidenceItem) (goal : String)
    (prev_id : Option String) : Request :=
  { model := MODEL,
    input := .messages
      [{ role := .assistant, content := "Current data: " ++ dumpsCollected collected },
       { role := .user, content := "This has not met the goal: " ++ goal ++ ". Write 5 other web searchs to achieve the goal" }],
    instructions := developer_message, tools := false, previousResponseId := prev_id }

/-- Python `plan[k]` for a json-derived value: `keyError` when the key is
missing from a dict, `typeError` when the value is not a dict; duplicate
keys resolve to the last binding as in Python dicts. -/
def jGetKey (v : JValue) (k : String) : Except AppError JValue :=
  match v with
  | .obj kvs =>
    match kvs.foldl (fun acc kv => if kv.1 = k then some kv.2 else acc) none with
    | some r => .ok r
    | none => .error (.keyError k)
  | _ => .error .typeError

/-- Does a json value have the given object key? -/
def hasKey (v : JValue) (k : String) : Bool :=
  match v with
  | .obj kvs => kvs.any (fun kv => kv.1 = k)
  | _ => false

/-- Embeds `get_goal_and_queries` (src/app.py lines 61-73) applied to the
gateway's response: `json.loads` the reply text (uncaught
`jsonDecodeError` on failure — the condition the spec names
`MalformedPlanError`), then `plan` subscripted at `goal` and at
`queries`, in source order. -/
def get_goal_and_queries (resp : Response) : Except AppError (JValue × JValue) :=
  match getText0 resp with
  | none => .error .indexError
  | some text =>
    match jsonLoads text with
    | none => .error .jsonDecodeError
    | some plan =>
      match jGetKey plan "goal" with
      | .error e => .error e
      | .ok g =>
        match jGetKey plan "queries" with
        | .error e => .error e
        | .ok qs => .ok (g, qs)

/-- Python `for q in queries` over a json-derived value: lists yield their
elements, strings their characters, dicts their keys; other values raise
`TypeError`. -/
def pyIter : JValue → Except AppError (List JValue)
  | .arr xs => .ok xs
  | .str s => .ok (s.data.map (fun c => JValue.str (String.mk [c])))
  | .obj kvs => .ok (kvs.map (fun kv => JValue.str kv.1))
  | _ => .error .typeError

/-- The external gateway, modelled as call-indexed response streams: the
k-th search / evaluation / expansion call of the loop receives the k-th
response of its stream. -/
structure Oracles where
  search : Nat → Response
  eval : Nat → Response
  expand : Nat → Response

/-- Instrumented state of the research loop: the `collected` list and the
current `queries` value of src/app.py lines 178-179, plus observation
logs — every query passed to the Evidence Collector in order
(`searchCalls`), the number of completed search passes and of evaluation
calls, and every expansion request issued. -/
structure LoopState where
  collected : List EvidenceItem
  queries : JValue
  searchCalls : List JValue
  searchPasses : Nat
  evalCalls : Nat
  expandRequests : List Request
deriving Repr

/-- Embeds the inner `for q in queries: collected.append(run_search(q))`
loop (src/app.py lines 183-184); on a failing search the exception
propagates with the earlier appends retained (`collected` aliases the
session list, so they survive). -/
def runQueries (osearch : Nat → Response) : List JValue → LoopState →
    Except (AppError × LoopState) LoopState
  | [], s => .ok s
  | q :: qs, s =>
    match run_search (osearch s.searchCalls.length) q with
    | .error e => .error (e, { s with searchCalls := s.searchCalls ++ [q] })
    | .ok item =>
      runQueries osearch qs
        { s with searchCalls := s.searchCalls ++ [q], collected := s.collected ++ [item] }

/-- Result of observing the research loop for a bounded number of
iterations: normal termination via the evaluator, an error, or fuel
exhausted (the source loop `for _ in itertools.count()` is unbounded;
`fuelOut` only means the loop was still running after `fuel` iterations). -/
inductive LoopOutcome where
  | done : LoopState → LoopOutcome
  | failed : AppError → LoopState → LoopOutcome
  | fuelOut : LoopState → LoopOutcome
deriving Repr

/-- The loop state carried by an outcome. -/
def LoopOutcome.state : LoopOutcome → LoopState
  | .done s => s
  | .failed _ s => s
  | .fuelOut s => s

/-- Embeds the research loop (src/app.py lines 182-188): one iteration
iterates the current queries calling the collector on each, makes one
evaluation call, stops on a true evaluation, otherwise replaces the local
`queries` with `get_more_queries(collected, goal, None)` — the `None` at
line 188 is the hard-coded `previous_response_id` recorded in
`expandRequests`. -/
def researchLoop (O : Oracles) (goal : String) : Nat → LoopState → LoopOutcome
  | 0, s => .fuelOut s
  | fuel + 1, s =>
    match pyIter s.queries with
    | .error e => .failed e s
    | .ok qs =>
      match runQueries O.search qs s with
      | .error (e, s1) => .failed e s1
      | .ok s1 =>
        match evaluate (O.eval s1.evalCalls) with
        | .error e =>
          .failed e { s1 with searchPasses := s1.searchPasses + 1, evalCalls := s1.evalCalls + 1 }
        | .ok true =>
          .done { s1 with searchPasses := s1.searchPasses + 1, evalCalls := s1.evalCalls + 1 }
        | .ok false =>
          match get_more_queries (O.expand s1.expandRequests.length) with
          | .error e =>
            .failed e
              { s1 with
                searchPasses := s1.searchPasses + 1, evalCalls := s1.evalCalls + 1,
                expandRequests := s1.expandRequests ++ [getMoreQueriesRequest s1.collected goal none] }
          | .ok v =>
            researchLoop O goal fuel
              { s1 with
                searchPasses := s1.searchPasses + 1, evalCalls := s1.evalCalls + 1,
                expandRequests := s1.expandRequests ++ [getMoreQueriesRequest s1.collected goal none],
                queries := v }

/-- The session state of src/app.py lines 22-37 (the `st.session_state`
fields). -/
structure Session where
  step : Nat
  topic : String
  questions : List String
  answers : List String
  goal : String
  queries : JValue
  collected : List EvidenceItem
  report : String
deriving Repr

/-- The loop state at entry to the step == 3 branch (src/app.py lines
178-180): locals are bound from the session, observation logs start
empty. -/
def initLoopState (s : Session) : LoopState :=
  { collected := s.collected, queries := s.queries, searchCalls := [],
    searchPasses := 0, evalCalls := 0, expandRequests := [] }

/-- Outcome of running the step == 3 branch on a session. -/
inductive StepOutcome where
  | ok : Session → StepOutcome
  | failed : AppError → Session → StepOutcome
  | fuelOut : Session → StepOutcome
deriving Repr

/-- The session carried by a step outcome. -/
def StepOutcome.session : StepOutcome → Session
  | .ok s => s
  | .failed _ s => s
  | .fuelOut s => s

/-- The research loop as entered from the step == 3 branch. -/
def step3Loop (O : Oracles) (fuel : Nat) (s : Session) : LoopOutcome :=
  researchLoop O s.goal fuel (initLoopState s)

/-- Embeds the step == 3 branch (src/app.py lines 176-191): run the loop;
on normal termination store `collected` back and advance to step 4; on an
error the script halts with `step` unchanged, but the appended evidence
survives because the local `collected` aliases the session list. -/
def step3 (O : Oracles) (fuel : Nat) (s : Session) : StepOutcome :=
  match step3Loop O fuel s with
  | .done ls => .ok { s with collected := ls.collected, step := 4 }
  | .failed e ls => .failed e { s with collected := ls.collected }
  | .fuelOut ls => .fuelOut { s with collected := ls.collected }

/-- Does a gateway response carry a tool result in the shape `run_search`
reads: a second output slot with at least one content part? -/
def hasToolResult (r : Response) : Bool :=
  match r.output[1]? with
  | some item => item.content[0]?.isSome
  | none => false

/-- Is a json value an array? -/
def JValue.isArr : JValue → Bool
  | .arr _ => true
  | _ => false

/-- The loop state carried inside either side of a `runQueries` result. -/
def exceptState : Except (AppError × LoopState) LoopState → LoopState
  | .ok s => s
  | .error p => p.2

/-- Is a loop outcome the fuel-exhausted observation? -/
def LoopOutcome.isFuelOut : LoopOutcome → Bool
  | .fuelOut _ => true
  | _ => false

/-- Fixture: a search response whose second output slot carries a tool
result. -/
def respSearchOk : Response :=
  { output := [{ id := "msg0", content := [{ text := "chat" }] },
               { id := "tool1", content := [{ text := "found" }] }] }

/-- Fixture: a response with only the conversational slot (no tool fired). -/
def respNoTool : Response := mkTextResponse "msg0" "no tool fired"

/-- Fixture: an affirmative evaluator reply. -/
def respYes : Response := mkTextResponse "ev" "Yes."

/-- Fixture: a negative evaluator reply. -/
def respNo : Response := mkTextResponse "ev" "No!"

/-- Fixture: a reply with empty text. -/
def respEmptyText : Response := mkTextResponse "ex" ""

/-- Fixture: a reply whose text is an empty JSON object. -/
def respObjEmpty : Response := mkTextResponse "ex" "\x7b\x7d"

/-- Fixture: an expansion reply carrying a one-query JSON array. -/
def respArrQ6 : Response := mkTextResponse "ex" "[\"q6\"]"

/-- Fixture: a reply that is not valid JSON. -/
def respBadJson : Response := mkTextResponse "ex" "oops"

/-- Fixture oracle: searches succeed, the evaluator says no once then yes,
expansions return a one-query array. -/
def oracleA : Oracles :=
  { search := fun _ => respSearchOk,
    eval := fun k => if k = 0 then respNo else respYes,
    expand := fun _ => respArrQ6 }

/-- Fixture oracle: searches succeed, the evaluator always says no,
expansions return an empty JSON object. -/
def oracleB : Oracles :=
  { search := fun _ => respSearchOk,
    eval := fun _ => respNo,
    expand := fun _ => respObjEmpty }

/-- Fixture oracle: searches succeed, the evaluator always says no,
expansions return empty text. -/
def oracleC : Oracles :=
  { search := fun _ => respSearchOk,
    eval := fun _ => respNo,
    expand := fun _ => respEmptyText }

/-- Fixture: a loop state at entry with two pending queries. -/
def stateAB : LoopState :=
  { collected := [], queries := JValue.arr [JValue.str "a", JValue.str "b"],
    searchCalls := [], searchPasses := 0, evalCalls := 0, expandRequests := [] }

/-- Fixture: a loop state at entry with an empty query list. -/
def stateEmptyQ : LoopState :=
  { collected := [], queries := JValue.arr [],
    searchCalls := [], searchPasses := 0, evalCalls := 0, expandRequests := [] }

/-- Fixture: the five-query plan of the spec scenario. -/
def queries5 : List JValue :=
  [JValue.str "solar battery 2024", JValue.str "grid storage costs",
   JValue.str "battery chemistry advances", JValue.str "storage subsidies",
   JValue.str "market forecast 2025"]

/-- Fixture: a loop state at entry with five pending queries. -/
def state5 : LoopState :=
  { collected := [], queries := JValue.arr queries5,
    searchCalls := [], searchPasses := 0, evalCalls := 0, expandRequests := [] }

/-- Fixture: a session about to run the research loop. -/
def session0 : Session :=
  { step := 3, topic := "t", questions := [], answers := [],
    goal := "g", queries := JValue.arr [], collected := [], report := "" }

/-- Python substring containment agrees with list-infix containment. -/
theorem pyContains_iff (n : List Char) : ∀ h : List Char, pyContains n h = true ↔ n <:+: h := by
  intro h
  induction h with
  | nil =>
    simp only [pyContains, List.isEmpty_iff, List.infix_nil]
  | cons c t ih =>
    simp only [pyContains, Bool.or_eq_true, List.isPrefixOf_iff_prefix, ih,
      List.infix_cons_iff]

/-- A response with a tool-result slot makes `run_search` succeed with that
slot's id and text. -/
theorem run_search_of_hasToolResult (r : Response) (q : JValue)
    (h : hasToolResult r = true) :
    ∃ item part, r.output[1]? = some item ∧ item.content[0]? = some part ∧
      run_search r q = .ok { query := q, resp_id := item.id, research_output := part.text } := by
  cases ho : r.output[1]? with
  | none => simp [hasToolResult, ho] at h
  | some item =>
    cases hc : item.content[0]? with
    | none => simp [hasToolResult, ho, hc] at h
    | some part =>
      exact ⟨item, part, rfl, hc, by simp [run_search, ho, hc]⟩

/-- Last-binding lookup returns its accumulator when no key matches. -/
theorem lookupLast_eq_of_any_false (k : String) :
    ∀ (kvs : List (String × JValue)) (acc : Option JValue),
      kvs.any (fun kv => kv.1 = k) = false →
      kvs.foldl (fun acc kv => if kv.1 = k then some kv.2 else acc) acc = acc := by
  intro kvs
  induction kvs with
  | nil => intro acc _; rfl
  | cons kv kvs ih =>
    intro acc h
    simp only [List.any_cons, Bool.or_eq_false_iff, decide_eq_false_iff_not] at h
    rw [List.foldl_cons, if_neg h.1]
    exact ih acc h.2

/-- Last-binding lookup starting from a present value stays present. -/
theorem lookupLast_some_of_some (k : String) :
    ∀ (kvs : List (String × JValue)) (x : JValue),
      ∃ r, kvs.foldl (fun acc kv => if kv.1 = k then some kv.2 else acc) (some x) = some r := by
  intro kvs
  induction kvs with
  | nil => intro x; exact ⟨x, rfl⟩
  | cons kv kvs ih =>
    intro x
    rw [List.foldl_cons]
    by_cases hk : kv.1 = k
    · rw [if_pos hk]; exact ih kv.2
    · rw [if_neg hk]; exact ih x

/-- Last-binding lookup finds a value when some key matches. -/
theorem lookupLast_some_of_any (k : String) :
    ∀ (kvs : List (String × JValue)),
      kvs.any (fun kv => kv.1 = k) = true →
      ∃ r, kvs.foldl (fun acc kv => if kv.1 = k then some kv.2 else acc) none = some r := by
  intro kvs
  induction kvs with
  | nil => intro h; cases h
  | cons kv kvs ih =>
    intro h
    rw [List.foldl_cons]
    by_cases hk : kv.1 = k
    · rw [if_pos hk]; exact lookupLast_some_of_some k kvs kv.2
    · rw [if_neg hk]
      simp only [List.any_cons, Bool.or_eq_true, decide_eq_true_eq] at h
      exact ih (h.resolve_left hk)

/-- Subscripting a json value at an absent key fails. -/
theorem jGetKey_error_of_not_hasKey (v : JValue) (k : String) (h : hasKey v k = false) :
    ∃ e, jGetKey v k = .error e := by
  cases v with
  | obj kvs =>
    refine ⟨.keyError k, ?_⟩
    simp only [hasKey] at h
    simp [jGetKey, lookupLast_eq_of_any_false k kvs none h]
  | null => exact ⟨.typeError, rfl⟩
  | bool b => exact ⟨.typeError, rfl⟩
  | num n => exact ⟨.typeError, rfl⟩
  | str s => exact ⟨.typeError, rfl⟩
  | arr xs => exact ⟨.typeError, rfl⟩

/-- Subscripting a json value at a present key succeeds. -/
theorem jGetKey_ok_of_hasKey (v : JValue) (k : String) (h : hasKey v k = true) :
    ∃ r, jGetKey v k = .ok r := by
  cases v with
  | obj kvs =>
    simp only [hasKey] at h
    obtain ⟨r, hr⟩ := lookupLast_some_of_any k kvs h
    refine ⟨r, ?_⟩
    simp [jGetKey, hr]
  | null => cases h
  | bool b => cases h
  | num n => cases h
  | str s => cases h
  | arr xs => cases h

/-- A searching pass only appends to `collected` and `searchCalls` and
leaves every other field unchanged, on the success and on the error path. -/
theorem runQueries_ext (osearch : Nat → Response) :
    ∀ (qs : List JValue) (s : LoopState),
      s.collected <+: (exceptState (runQueries osearch qs s)).collected ∧
      s.searchCalls <+: (exceptState (runQueries osearch qs s)).searchCalls ∧
      (exceptState (runQueries osearch qs s)).queries = s.queries ∧
      (exceptState (runQueries osearch qs s)).searchPasses = s.searchPasses ∧
      (exceptState (runQueries osearch qs s)).evalCalls = s.evalCalls ∧
      (exceptState (runQueries osearch qs s)).expandRequests = s.expandRequests := by
  intro qs
  induction qs with
  | nil =>
    intro s
    simp [runQueries, exceptState]
  | cons q qs ih =>
    intro s
    simp only [runQueries]
    cases hrs : run_search (osearch s.searchCalls.length) q with
    | error e =>
      exact ⟨List.prefix_rfl, List.prefix_append _ _, rfl, rfl, rfl, rfl⟩
    | ok item =>
      have h := ih { s with searchCalls := s.searchCalls ++ [q], collected := s.collected ++ [item] }
      exact ⟨List.IsPrefix.trans (List.prefix_append _ _) h.1,
        List.IsPrefix.trans (List.prefix_append _ _) h.2.1,
        h.2.2.1, h.2.2.2.1, h.2.2.2.2.1, h.2.2.2.2.2⟩

/-- With a tool result on every search response, a searching pass succeeds,
logs exactly the given queries in order, and appends exactly one evidence
item per query, in order, each carrying its query. -/
theorem runQueries_ok (osearch : Nat → Response)
    (hok : ∀ k, hasToolResult (osearch k) = true) :
    ∀ (qs : List JValue) (s : LoopState),
      ∃ newItems : List EvidenceItem,
        runQueries osearch qs s =
          .ok { s with searchCalls := s.searchCalls ++ qs, collected := s.collected ++ newItems } ∧
        newItems.map EvidenceItem.query = qs := by
  intro qs
  induction qs with
  | nil =>
    intro s
    exact ⟨[], by simp [runQueries], rfl⟩
  | cons q qs ih =>
    intro s
    obtain ⟨slot, part, hi, hp, hrun⟩ :=
      run_search_of_hasToolResult (osearch s.searchCalls.length) q (hok _)
    obtain ⟨items, hrec, hmap⟩ :=
      ih { s with searchCalls := s.searchCalls ++ [q],
                  collected := s.collected ++ [{ query := q, resp_id := slot.id,
                                                 research_output := part.text }] }
    refine ⟨{ query := q, resp_id := slot.id, research_output := part.text } :: items, ?_, ?_⟩
    · simp only [runQueries, hrun]
      rw [hrec]
      simp [List.append_assoc]
    · simp [hmap]

/-- Whatever the oracles do, the research loop only appends to the
evidence list, the collector-call log and the expansion-request log. -/
theorem researchLoop_mono (O : Oracles) (goal : String) :
    ∀ (fuel : Nat) (s : LoopState),
      s.collected <+: ((researchLoop O goal fuel s).state).collected ∧
      s.searchCalls <+: ((researchLoop O goal fuel s).state).searchCalls ∧
      s.expandRequests <+: ((researchLoop O goal fuel s).state).expandRequests := by
  intro fuel
  induction fuel with
  | zero => intro s; exact ⟨List.prefix_rfl, List.prefix_rfl, List.prefix_rfl⟩
  | succ fuel ih =>
    intro s
    simp only [researchLoop]
    cases hpi : pyIter s.queries with
    | error e => exact ⟨List.prefix_rfl, List.prefix_rfl, List.prefix_rfl⟩
    | ok qs =>
      dsimp only
      have hext := runQueries_ext O.search qs s
      cases hrq : runQueries O.search qs s with
      | error p =>
        rw [hrq] at hext
        simp only [exceptState] at hext
        obtain ⟨e, s1⟩ := p
        dsimp only
        refine ⟨hext.1, hext.2.1, ?_⟩
        have hexpEq : s1.expandRequests = s.expandRequests := hext.2.2.2.2.2
        dsimp only [LoopOutcome.state]
        try simp only [hexpEq]
        exact List.prefix_rfl
      | ok s1 =>
        rw [hrq] at hext
        simp only [exceptState] at hext
        have hexpEq : s1.expandRequests = s.expandRequests := hext.2.2.2.2.2
        dsimp only
        cases hev : evaluate (O.eval s1.evalCalls) with
        | error e =>
          refine ⟨hext.1, hext.2.1, ?_⟩
          dsimp only [LoopOutcome.state]
          try simp only [hexpEq]
          exact List.prefix_rfl
        | ok b =>
          cases b with
          | true =>
            refine ⟨hext.1, hext.2.1, ?_⟩
            dsimp only [LoopOutcome.state]
            try simp only [hexpEq]
            exact List.prefix_rfl
          | false =>
            dsimp only
            cases hexp : get_more_queries (O.expand s1.expandRequests.length) with
            | error e =>
              refine ⟨hext.1, hext.2.1, ?_⟩
              dsimp only [LoopOutcome.state]
              try simp only [hexpEq]
              exact List.prefix_append _ _
            | ok v =>
              dsimp only
              have hihs := ih
                { s1 with
                  searchPasses := s1.searchPasses + 1, evalCalls := s1.evalCalls + 1,
                  expandRequests :=
                    s1.expandRequests ++ [getMoreQueriesRequest s1.collected goal none],
                  queries := v }
              refine ⟨List.IsPrefix.trans hext.1 hihs.1,
                List.IsPrefix.trans hext.2.1 hihs.2.1,
                List.IsPrefix.trans ?_ hihs.2.2⟩
              try simp only [hexpEq]
              exact List.prefix_append _ _

/-- Every expansion request the research loop adds to the log carries a
`None` continuation identifier (src/app.py line 188). -/
theorem researchLoop_prev_none (O : Oracles) (goal : String) :
    ∀ (fuel : Nat) (s : LoopState) (r : Request),
      r ∈ ((researchLoop O goal fuel s).state).expandRequests →
      r ∈ s.expandRequests ∨ r.previousResponseId = none := by
  intro fuel
  induction fuel with
  | zero => intro s r hr; exact Or.inl hr
  | succ fuel ih =>
    intro s r
    simp only [researchLoop]
    cases hpi : pyIter s.queries with
    | error e => exact fun hr => Or.inl hr
    | ok qs =>
      dsimp only
      have hext := runQueries_ext O.search qs s
      cases hrq : runQueries O.search qs s with
      | error p =>
        rw [hrq] at hext
        simp only [exceptState] at hext
        obtain ⟨e, s1⟩ := p
        dsimp only
        intro hr
        dsimp only [LoopOutcome.state] at hr
        have hexpEq : s1.expandRequests = s.expandRequests := hext.2.2.2.2.2
        rw [hexpEq] at hr
        exact Or.inl hr
      | ok s1 =>
        rw [hrq] at hext
        simp only [exceptState] at hext
        have hexpEq : s1.expandRequests = s.expandRequests := hext.2.2.2.2.2
        dsimp only
        cases hev : evaluate (O.eval s1.evalCalls) with
        | error e =>
          intro hr
          dsimp only [LoopOutcome.state] at hr
          first
          | exact Or.inl hr
          | (rw [hexpEq] at hr; exact Or.inl hr)
        | ok b =>
          cases b with
          | true =>
            intro hr
            dsimp only [LoopOutcome.state] at hr
            first
            | exact Or.inl hr
            | (rw [hexpEq] at hr; exact Or.inl hr)
          | false =>
            dsimp only
            cases hexp : get_more_queries (O.expand s1.expandRequests.length) with
            | error e =>
              intro hr
              dsimp only [LoopOutcome.state] at hr
              rcases List.mem_append.1 hr with h1 | h1
              · first
                | exact Or.inl h1
                | (rw [hexpEq] at h1; exact Or.inl h1)
              · rcases List.mem_singleton.1 h1 with rfl
                exact Or.inr rfl
            | ok v =>
              intro hr
              rcases ih _ r hr with hr1 | hm
              · dsimp only at hr1
                rcases List.mem_append.1 hr1 with h2 | h2
                · first
                  | exact Or.inl h2
                  | (rw [hexpEq] at h2; exact Or.inl h2)
                · rcases List.mem_singleton.1 h2 with rfl
                  exact Or.inr rfl
              · exact Or.inr hm

/-- With tool results on every search response, an evaluator oracle that
says no `M` times and then yes, and expansion replies that parse as JSON
arrays, the research loop terminates normally with exactly `M + 1` search
passes, exactly `M + 1` evaluation calls and exactly `M` expansion
requests. -/
theorem researchLoop_count (O : Oracles) (goal : String)
    (hsearch : ∀ k, hasToolResult (O.search k) = true) :
    ∀ (M fuel : Nat) (s : LoopState) (qs : List JValue),
      s.queries = JValue.arr qs →
      M + 1 ≤ fuel →
      (∀ k, k < M → evaluate (O.eval (s.evalCalls + k)) = .ok false) →
      evaluate (O.eval (s.evalCalls + M)) = .ok true →
      (∀ k, k < M →
        ∃ xs, get_more_queries (O.expand (s.expandRequests.length + k)) = .ok (JValue.arr xs)) →
      ∃ s2, researchLoop O goal fuel s = .done s2 ∧
        s2.searchPasses = s.searchPasses + (M + 1) ∧
        s2.evalCalls = s.evalCalls + (M + 1) ∧
        s2.expandRequests.length = s.expandRequests.length + M := by
  intro M
  induction M with
  | zero =>
    intro fuel s qs hq hfuel heval hevalT hexp
    cases fuel with
    | zero => exact absurd hfuel (by omega)
    | succ f =>
      simp only [researchLoop]
      rw [hq]
      dsimp only [pyIter]
      obtain ⟨items, hrun, hmap⟩ := runQueries_ok O.search hsearch qs s
      rw [hrun]
      dsimp only
      have hevT : evaluate (O.eval s.evalCalls) = .ok true := by
        have h0 := hevalT
        rw [Nat.add_zero] at h0
        exact h0
      rw [hevT]
      refine ⟨_, rfl, ?_, ?_, ?_⟩
      all_goals (try dsimp only)
      all_goals omega
  | succ M ih =>
    intro fuel s qs hq hfuel heval hevalT hexp
    cases fuel with
    | zero => exact absurd hfuel (by omega)
    | succ f =>
      simp only [researchLoop]
      rw [hq]
      dsimp only [pyIter]
      obtain ⟨items, hrun, hmap⟩ := runQueries_ok O.search hsearch qs s
      rw [hrun]
      dsimp only
      have hev0 : evaluate (O.eval s.evalCalls) = .ok false := by
        have h0 := heval 0 (by omega)
        rw [Nat.add_zero] at h0
        exact h0
      rw [hev0]
      dsimp only
      obtain ⟨xs, hex⟩ := hexp 0 (by omega)
      have hex0 : get_more_queries (O.expand s.expandRequests.length) = .ok (JValue.arr xs) := by
        have h0 := hex
        rw [Nat.add_zero] at h0
        exact h0
      rw [hex0]
      dsimp only
      obtain ⟨s2, hdone, hsp, hec, hel⟩ := ih f
        { collected := s.collected ++ items, queries := JValue.arr xs,
          searchCalls := s.searchCalls ++ qs, searchPasses := s.searchPasses + 1,
          evalCalls := s.evalCalls + 1,
          expandRequests :=
            s.expandRequests ++ [getMoreQueriesRequest (s.collected ++ items) goal none] }
        xs rfl (by omega)
        (by
          intro k hk
          dsimp only
          rw [show s.evalCalls + 1 + k = s.evalCalls + (k + 1) by omega]
          exact heval (k + 1) (by omega))
        (by
          dsimp only
          rw [show s.evalCalls + 1 + M = s.evalCalls + (M + 1) by omega]
          exact hevalT)
        (by
          intro k hk
          obtain ⟨ys, hys⟩ := hexp (k + 1) (by omega)
          refine ⟨ys, ?_⟩
          dsimp only
          rw [List.length_append, List.length_singleton]
          rw [show s.expandRequests.length + 1 + k = s.expandRequests.length + (k + 1) by omega]
          exact hys)
      refine ⟨s2, hdone, ?_, ?_, ?_⟩
      · dsimp only at hsp
        omega
      · dsimp only at hec
        omega
      · dsimp only at hel
        rw [List.length_append, List.length_singleton] at hel
        omega

/-- Observing the loop one iteration longer only extends the evidence
list: the trace of `collected` is monotone in the observation depth. -/
theorem researchLoop_fuel_mono (O : Oracles) (goal : String) :
    ∀ (fuel : Nat) (s : LoopState),
      ((researchLoop O goal fuel s).state).collected <+:
        ((researchLoop O goal (fuel + 1) s).state).collected := by
  intro fuel
  induction fuel with
  | zero => intro s; exact (researchLoop_mono O goal 1 s).1
  | succ fuel ih =>
    intro s
    simp only [researchLoop]
    cases hpi : pyIter s.queries with
    | error e => exact List.prefix_rfl
    | ok qs =>
      dsimp only
      cases hrq : runQueries O.search qs s with
      | error p =>
        obtain ⟨e, s1⟩ := p
        exact List.prefix_rfl
      | ok s1 =>
        dsimp only
        cases hev : evaluate (O.eval s1.evalCalls) with
        | error e => exact List.prefix_rfl
        | ok b =>
          cases b with
          | true => exact List.prefix_rfl
          | false =>
            dsimp only
            cases hexp : get_more_queries (O.expand s1.expandRequests.length) with
            | error e => exact List.prefix_rfl
            | ok v => exact ih _

/-- The session a step-3 run returns carries the loop's final evidence
list, whatever the outcome. -/
theorem step3_collected (O : Oracles) (fuel : Nat) (s : Session) :
    ((step3 O fuel s).session).collected = ((step3Loop O fuel s).state).collected := by
  unfold step3
  cases step3Loop O fuel s <;> rfl

/-- C3: for every gateway reply text, the sufficiency evaluation returns
true iff the lowercased reply text contains the substring "yes", and
returns false exactly when that substring is absent. -/
theorem claim_evaluate_yes_substring (resp : Response) (t : String)
    (h : getText0 resp = some t) :
    (evaluate resp = .ok true ↔ "yes".data <:+: (pyLower t).data) ∧
    (evaluate resp = .ok false ↔ ¬ "yes".data <:+: (pyLower t).data) := by
  have he : evaluate resp = .ok (pyContains "yes".data (pyLower t).data) := by
    simp [evaluate, h]
  rw [he]
  constructor
  · simpa [Except.ok.injEq] using pyContains_iff "yes".data (pyLower t).data
  · simp only [Except.ok.injEq]
    rw [← pyContains_iff "yes".data (pyLower t).data]
    cases pyContains "yes".data (pyLower t).data <;> simp

/-- C3 witness: on the concrete reply "Yes." the evaluation is true and
the substring is indeed present. -/
theorem claim_evaluate_yes_substring_witness :
    getText0 respYes = some "Yes." ∧
    (evaluate respYes = .ok true ↔ "yes".data <:+: (pyLower "Yes.").data) :=
  ⟨rfl, (claim_evaluate_yes_substring respYes "Yes." rfl).1⟩

/-- C6: when the gateway response has no second output slot the collector
fails (the `IndexError` the spec names NoSearchResultError) instead of
returning an item with missing fields, and when a second slot with text
content exists the returned item carries that slot's id and text. -/
theorem claim_collector_no_second_slot (resp : Response) (q : JValue) :
    (resp.output[1]? = none → run_search resp q = .error .indexError) ∧
    (∀ item part, resp.output[1]? = some item → item.content[0]? = some part →
      run_search resp q =
        .ok { query := q, resp_id := item.id, research_output := part.text }) := by
  constructor
  · intro h
    simp [run_search, h]
  · intro item part hi hp
    simp [run_search, hi, hp]

/-- C6 witness: the one-slot fixture fails, the two-slot fixture returns
the tool slot's id and text. -/
theorem claim_collector_no_second_slot_witness :
    run_search respNoTool (JValue.str "q") = .error .indexError ∧
    run_search respSearchOk (JValue.str "q") =
      .ok { query := JValue.str "q", resp_id := "tool1", research_output := "found" } :=
  ⟨(claim_collector_no_second_slot respNoTool (JValue.str "q")).1 rfl,
   (claim_collector_no_second_slot respSearchOk (JValue.str "q")).2 _ _ rfl rfl⟩

/-- C7: whenever the planner reply is not valid JSON, or parses to a value
without both a `goal` and a `queries` key, the planner fails (the
condition the spec names MalformedPlanError) instead of returning a plan. -/
theorem claim_planner_malformed_fails (resp : Response) (t : String)
    (h : getText0 resp = some t)
    (hbad : ∀ v, jsonLoads t = some v → (hasKey v "goal" && hasKey v "queries") = false) :
    ∃ e, get_goal_and_queries resp = .error e := by
  cases hj : jsonLoads t with
  | none => exact ⟨.jsonDecodeError, by simp [get_goal_and_queries, h, hj]⟩
  | some v =>
    have hb := hbad v hj
    cases hg : hasKey v "goal" with
    | false =>
      obtain ⟨e, he⟩ := jGetKey_error_of_not_hasKey v "goal" hg
      exact ⟨e, by simp [get_goal_and_queries, h, hj, he]⟩
    | true =>
      have hq : hasKey v "queries" = false := by
        cases hqq : hasKey v "queries" with
        | false => rfl
        | true => rw [hg, hqq] at hb; simp at hb
      obtain ⟨g, hgok⟩ := jGetKey_ok_of_hasKey v "goal" hg
      obtain ⟨e, he⟩ := jGetKey_error_of_not_hasKey v "queries" hq
      exact ⟨e, by simp [get_goal_and_queries, h, hj, hgok, he]⟩

/-- C7 witness: an empty JSON object reply has neither key and the planner
fails on it. -/
theorem claim_planner_malformed_fails_witness :
    getText0 (mkTextResponse "p" "\x7b\x7d") = some "\x7b\x7d" ∧
    ∃ e, get_goal_and_queries (mkTextResponse "p" "\x7b\x7d") = .error e :=
  ⟨rfl,
   claim_planner_malformed_fails (mkTextResponse "p" "\x7b\x7d") "\x7b\x7d" rfl
     (by
       intro v hv
       rw [show jsonLoads "\x7b\x7d" = some (JValue.obj []) from rfl] at hv
       cases Option.some.inj hv
       rfl)⟩

/-- C4: the evidence sequence is append-only for the whole step-3 run:
whatever the oracles reply and however the run ends, the session's prior
evidence is a prefix of the resulting evidence (so no item is removed or
mutated in place), and observing the loop one iteration longer only
extends the evidence further (its length is non-decreasing across every
step of the run). -/
theorem claim_evidence_append_only (O : Oracles) (fuel : Nat) (s : Session) :
    s.collected <+: ((step3 O fuel s).session).collected ∧
    ((step3 O fuel s).session).collected <+: ((step3 O (fuel + 1) s).session).collected := by
  constructor
  · rw [step3_collected]
    have h : (initLoopState s).collected <+: ((step3Loop O fuel s).state).collected :=
      (researchLoop_mono O s.goal fuel (initLoopState s)).1
    exact h
  · rw [step3_collected, step3_collected]
    exact researchLoop_fuel_mono O s.goal fuel (initLoopState s)

/-- C8: a step-3 run never changes the session's goal, whatever the
oracles reply and however the run ends: the evaluator and expander only
read it. -/
theorem claim_goal_immutable (O : Oracles) (fuel : Nat) (s : Session) :
    ((step3 O fuel s).session).goal = s.goal := by
  unfold step3
  cases step3Loop O fuel s <;> rfl

/-- C10: a step-3 run never writes the expanded query set back to the
session: the resulting session's queries field equals the entry value no
matter how many expansions occurred (only the loop-local variable is
rebound). -/
theorem claim_session_queries_unchanged (O : Oracles) (fuel : Nat) (s : Session) :
    ((step3 O fuel s).session).queries = s.queries := by
  unfold step3
  cases step3Loop O fuel s <;> rfl

/-- C9: every expansion request a step-3 run issues carries a `None`
conversation-continuation identifier, although `get_more_queries` accepts
a previous-response id parameter (the loop hard-codes `None` at line 188). -/
theorem claim_expander_prev_id_none (O : Oracles) (fuel : Nat) (s : Session) (r : Request)
    (hr : r ∈ ((step3Loop O fuel s).state).expandRequests) :
    r.previousResponseId = none := by
  have h := researchLoop_prev_none O s.goal fuel (initLoopState s) r hr
  rcases h with h | h
  · exact absurd h (List.not_mem_nil r)
  · exact h

/-- C9 witness: a run that makes one expansion call logs exactly the
request with a `None` continuation id. -/
theorem claim_expander_prev_id_none_witness :
    (getMoreQueriesRequest [] "g" none ∈ ((step3Loop oracleC 1 session0).state).expandRequests) ∧
    (getMoreQueriesRequest [] "g" none).previousResponseId = none :=
  have hmem : getMoreQueriesRequest [] "g" none ∈
      ((step3Loop oracleC 1 session0).state).expandRequests :=
    List.mem_singleton.mpr rfl
  ⟨hmem, claim_expander_prev_id_none oracleC 1 session0 _ hmem⟩

/-- C1: the loop has no iteration cap — for every N at least 1 and every
observation depth of at least N iterations, a stub evaluator oracle that
answers its first N-1 calls with no and its Nth call with yes makes a run
started at the loop entry perform exactly N search passes and exactly N
evaluation calls, stop normally, and issue exactly N-1 expansion requests
(none after the true-returning evaluation). -/
theorem claim_no_iteration_cap_stub_evaluator (O : Oracles) (goal : String)
    (N fuel : Nat) (s : LoopState) (qs : List JValue)
    (hsearch : ∀ k, hasToolResult (O.search k) = true)
    (hq : s.queries = JValue.arr qs)
    (hstart : s.evalCalls = 0 ∧ s.searchPasses = 0 ∧ s.expandRequests = [])
    (hN : 1 ≤ N) (hfuel : N ≤ fuel)
    (heval : ∀ k, k + 1 < N → evaluate (O.eval k) = .ok false)
    (hevalT : evaluate (O.eval (N - 1)) = .ok true)
    (hexp : ∀ k, k + 1 < N → ∃ xs, get_more_queries (O.expand k) = .ok (JValue.arr xs)) :
    ∃ s2, researchLoop O goal fuel s = .done s2 ∧
      s2.searchPasses = N ∧ s2.evalCalls = N ∧ s2.expandRequests.length = N - 1 := by
  obtain ⟨he0, hp0, hx0⟩ := hstart
  obtain ⟨M, rfl⟩ : ∃ M, N = M + 1 := ⟨N - 1, by omega⟩
  have hx0len : s.expandRequests.length = 0 := by rw [hx0]; rfl
  obtain ⟨s2, hdone, hsp, hec, hel⟩ := researchLoop_count O goal hsearch M fuel s qs hq
    (by omega)
    (by
      intro k hk
      rw [he0, Nat.zero_add]
      exact heval k (by omega))
    (by
      rw [he0, Nat.zero_add]
      exact hevalT)
    (by
      intro k hk
      rw [hx0len, Nat.zero_add]
      exact hexp k (by omega))
  refine ⟨s2, hdone, by omega, by omega, by omega⟩

/-- C1 witness: with a stub that answers no then yes, search responses
that always carry a tool result, and parseable expansions, the loop from
a two-query plan stops after exactly 2 passes, 2 evaluation calls and 1
expansion request, at observation depth 5. -/
theorem claim_no_iteration_cap_stub_evaluator_witness :
    ∃ s2, researchLoop oracleA "g" 5 stateAB = .done s2 ∧
      s2.searchPasses = 2 ∧ s2.evalCalls = 2 ∧ s2.expandRequests.length = 2 - 1 :=
  claim_no_iteration_cap_stub_evaluator oracleA "g" 2 5 stateAB
    [JValue.str "a", JValue.str "b"]
    (fun _ => rfl) rfl ⟨rfl, rfl, rfl⟩ (by omega) (by omega)
    (by
      intro k hk
      have hk0 : k = 0 := by omega
      subst hk0
      rfl)
    rfl
    (by
      intro k hk
      have hk0 : k = 0 := by omega
      subst hk0
      exact ⟨[JValue.str "q6"], rfl⟩)

/-- C2: a SEARCHING pass calls the Evidence Collector exactly once per
query of the current active set, in query order — the collector-call log
extends by exactly the query list and the evidence extends by exactly one
item per query, in the same order, each carrying its query — and entered
from the loop these are the very next collector calls of the run. -/
theorem claim_searching_pass_one_call_per_query (O : Oracles) (goal : String)
    (fuel : Nat) (s : LoopState) (qs : List JValue)
    (hok : ∀ k, hasToolResult (O.search k) = true)
    (hq : s.queries = JValue.arr qs)
    (hfuel : 1 ≤ fuel) :
    ∃ s1 newItems,
      runQueries O.search qs s = .ok s1 ∧
      s1.searchCalls = s.searchCalls ++ qs ∧
      s1.collected = s.collected ++ newItems ∧
      newItems.map EvidenceItem.query = qs ∧
      newItems.length = qs.length ∧
      (s.searchCalls ++ qs) <+: ((researchLoop O goal fuel s).state).searchCalls := by
  obtain ⟨items, hrun, hmap⟩ := runQueries_ok O.search hok qs s
  refine ⟨_, items, hrun, rfl, rfl, hmap, ?_, ?_⟩
  · rw [← hmap, List.length_map]
  · cases fuel with
    | zero => exact absurd hfuel (by omega)
    | succ f =>
      simp only [researchLoop]
      rw [hq]
      dsimp only [pyIter]
      rw [hrun]
      dsimp only
      cases hev : evaluate (O.eval s.evalCalls) with
      | error e => exact List.prefix_rfl
      | ok b =>
        cases b with
        | true => exact List.prefix_rfl
        | false =>
          dsimp only
          cases hexp : get_more_queries (O.expand s.expandRequests.length) with
          | error e => exact List.prefix_rfl
          | ok v =>
            dsimp only
            exact (researchLoop_mono O goal f
              { collected := s.collected ++ items, queries := v,
                searchCalls := s.searchCalls ++ qs, searchPasses := s.searchPasses + 1,
                evalCalls := s.evalCalls + 1,
                expandRequests :=
                  s.expandRequests ++
                    [getMoreQueriesRequest (s.collected ++ items) goal none] }).2.1

/-- C2 witness: a five-query plan yields a first pass of exactly those
five collector calls, in order, with five appended items. -/
theorem claim_searching_pass_one_call_per_query_witness :
    queries5.length = 5 ∧
    ∃ s1 newItems,
      runQueries oracleB.search queries5 state5 = .ok s1 ∧
      s1.searchCalls = state5.searchCalls ++ queries5 ∧
      s1.collected = state5.collected ++ newItems ∧
      newItems.map EvidenceItem.query = queries5 ∧
      newItems.length = queries5.length ∧
      (state5.searchCalls ++ queries5) <+:
        ((researchLoop oracleB "g" 1 state5).state).searchCalls :=
  ⟨rfl,
   claim_searching_pass_one_call_per_query oracleB "g" 1 state5 queries5
     (fun _ => rfl) rfl (by omega)⟩

/-- C5 counterexample: the expansion reply whose text is an empty JSON
object is not parseable as a list of query strings, yet `get_more_queries`
returns it without any error, and a loop fed this reply silently keeps
iterating with an empty query set: at observation depth 3 it is still
running, has made 3 evaluation calls and 3 expansion requests, and not a
single collector call. -/
theorem claim_expander_error_counterexample :
    get_more_queries respObjEmpty = .ok (JValue.obj []) ∧
    (jsonLoads "\x7b\x7d").map JValue.isArr = some false ∧
    (researchLoop oracleB "g" 3 stateEmptyQ).isFuelOut = true ∧
    ((researchLoop oracleB "g" 3 stateEmptyQ).state).evalCalls = 3 ∧
    ((researchLoop oracleB "g" 3 stateEmptyQ).state).searchCalls = [] ∧
    ((researchLoop oracleB "g" 3 stateEmptyQ).state).expandRequests.length = 3 :=
  ⟨rfl, rfl, rfl, rfl, rfl, rfl⟩

/-- C5 amended: the expander fails — with the st.error/st.stop halt the
spec names MalformedExpansionError — exactly when the reply text is empty
or is not parseable as JSON (a reply that parses to a non-list JSON value
is returned without error), and when an expansion fails this way during a
loop iteration the loop run fails with that error rather than swallowing
it. -/
theorem claim_expander_error_amended (resp : Response) (t : String)
    (h : getText0 resp = some t) :
    (get_more_queries resp = .error .stStop ↔ (t = "" ∨ jsonLoads t = none)) ∧
    (∀ (O : Oracles) (goal : String) (fuel : Nat) (s : LoopState) (qs : List JValue),
      O.expand s.expandRequests.length = resp →
      (∀ k, hasToolResult (O.search k) = true) →
      s.queries = JValue.arr qs →
      evaluate (O.eval s.evalCalls) = .ok false →
      (t = "" ∨ jsonLoads t = none) →
      ∃ s3, researchLoop O goal (fuel + 1) s = .failed .stStop s3) := by
  have hchar : ∀ u : Option JValue, jsonLoads t = u →
      (get_more_queries resp = .error .stStop ↔ (t = "" ∨ jsonLoads t = none)) := by
    intro u hu
    simp only [get_more_queries, h]
    by_cases ht : t = ""
    · simp [ht]
    · cases hj : jsonLoads t with
      | none => simp [if_neg ht, hj, ht]
      | some v => simp [if_neg ht, hj, ht]
  constructor
  · exact hchar (jsonLoads t) rfl
  · intro O goal fuel s qs hoe hok hq hev hbad
    obtain ⟨items, hrun, hmap⟩ := runQueries_ok O.search hok qs s
    have hstop : get_more_queries resp = .error .stStop :=
      (hchar (jsonLoads t) rfl).2 hbad
    refine ⟨{ collected := s.collected ++ items, queries := s.queries,
              searchCalls := s.searchCalls ++ qs, searchPasses := s.searchPasses + 1,
              evalCalls := s.evalCalls + 1,
              expandRequests :=
                s.expandRequests ++
                  [getMoreQueriesRequest (s.collected ++ items) goal none] }, ?_⟩
    simp only [researchLoop]
    rw [hq]
    dsimp only [pyIter]
    rw [hrun]
    dsimp only
    rw [hev]
    dsimp only
    rw [hoe, hstop, hq]

/-- C5 amended witness: an empty reply text makes the expander fail with
the halting error. -/
theorem claim_expander_error_amended_witness :
    get_more_queries respEmptyText = .error .stStop :=
  (claim_expander_error_amended respEmptyText "" rfl).1.mpr (Or.inl rfl)

end DeepResearch
